import Mathlib

/-!
Shallow embedding of `rag_app/app/rag_handler.py` (class `RAGHandler`).

Modelling conventions:
* A langchain `Document`/chunk is a `Chunk`: its `page_content` plus its
  provenance metadata, both as `List Char`.
* The FAISS vector store is modelled by the ordered list of chunks it holds
  (`Index`); `FAISS.from_documents` builds it from the batch chunks and
  `add_documents` appends, both subject to an embedding-provider success flag
  carried by the environment.
* The handler state `HState` is the pair of the in-memory store
  (`self.vector_store : Optional[FAISS]`) and the durable bytes stored at
  `VECTOR_STORE_PATH` (`disk : Option (List Nat)`, `none` = path absent).
* External calls (file system, document loaders, the embedding and completion
  providers) are oracles supplied in an environment record; a Python exception
  raised by such a call is an `Except.error` / `false` success flag.
-/

namespace RagApp

/-- A chunk: langchain `Document` with `page_content` and source metadata. -/
structure Chunk where
  page_content : List Char
  source : List Char
deriving DecidableEq, Repr

/-- The FAISS vector store, modelled as the ordered list of chunks it holds
(append-only, mirroring `add_documents`). -/
abbrev Index := List Chunk

/-! ## Serialization (persist / load of the vector store)

Modelled from the spec: the FAISS `save_local` / `load_local` byte format is
external library code not under `src/`; the spec requires the persisted state
to be "loaded/saved as a single logical unit", so it is modelled as a
length-prefixed serialization of the chunk list into `List Nat`, which a
corrupt byte sequence can fail to decode. -/

/-- Serialize a list of strings with length prefixes. -/
def encodeStrings (ls : List (List Char)) : List Nat :=
  (ls.map (fun s => s.length :: s.map Char.toNat)).flatten

/-- Deserialize a length-prefixed list of strings; `none` on corrupt data. -/
def decodeStrings : List Nat → Option (List (List Char))
  | [] => some []
  | len :: rest =>
    if h : len ≤ rest.length then
      match decodeStrings (rest.drop len) with
      | some tail => some ((rest.take len).map Char.ofNat :: tail)
      | none => none
    else none
termination_by bytes => bytes.length
decreasing_by simp; omega

/-- Regroup the flat string list into chunks; fails on an odd-shaped list. -/
def pairUp : List (List Char) → Option Index
  | [] => some []
  | [_] => none
  | a :: b :: rest => (pairUp rest).map (fun idx => ⟨a, b⟩ :: idx)

/-- Serialize an index: each chunk contributes its content and its source. -/
def encodeIndex (idx : Index) : List Nat :=
  encodeStrings ((idx.map (fun c => [c.page_content, c.source])).flatten)

/-- Deserialize an index from bytes; `none` models a `load_local` exception. -/
def decodeIndex (bytes : List Nat) : Option Index :=
  (decodeStrings bytes).bind pairUp

/-! ## Handler state and persistence methods -/

/-- The mutable state of a `RAGHandler`: the in-memory store
(`self.vector_store`) and the bytes durably stored at `VECTOR_STORE_PATH`
(`none` when no file exists at the path). -/
structure HState where
  vector_store : Option Index
  disk : Option (List Nat)
deriving DecidableEq, Repr

/-- Model of `RAGHandler._load_vector_store`: if the path exists, try to deserialize;
on an exception set `self.vector_store = None`; if the path does not exist,
only log (the field keeps its prior value). -/
def load_vector_store (st : HState) : HState :=
  match st.disk with
  | none => st
  | some bytes =>
    match decodeIndex bytes with
    | some idx => { st with vector_store := some idx }
    | none => { st with vector_store := none }

/-- Model of `RAGHandler.__init__`: sets `self.vector_store = None`, then calls
`self._load_vector_store()`. (The given on-disk bytes are the contents of
`VECTOR_STORE_PATH`.) -/
def initHandler (disk : Option (List Nat)) : HState :=
  load_vector_store { vector_store := none, disk := disk }

/-- Model of `RAGHandler._save_vector_store`: no-op when there is no in-memory store;
otherwise `save_local` overwrites the path, and an exception is caught and
only printed (`saveOk = false` leaves the disk unchanged). -/
def save_vector_store (saveOk : Bool) (st : HState) : HState :=
  match st.vector_store with
  | none => st
  | some idx => if saveOk then { st with disk := some (encodeIndex idx) } else st

/-! ## Extension dispatch (`os.path.splitext(file_path)[1].lower()`) -/

/-- A file path, as its character sequence. -/
abbrev Path := List Char

/-- Model of `os.path.splitext(p)[1]`: the extension of the basename of `p`, taken
from its last dot, empty when the basename has no dot or only leading dots
before it (CPython `posixpath.splitext` semantics). -/
def pySplitextExt (p : Path) : List Char :=
  let basenameRev := p.reverse.takeWhile (fun c => c ≠ '/')
  let extRev := basenameRev.takeWhile (fun c => c ≠ '.')
  if extRev.length < basenameRev.length then
    -- a dot exists in the basename; Python keeps the extension only when a
    -- non-dot character precedes that last dot within the basename
    if (basenameRev.drop (extRev.length + 1)).any (fun c => c ≠ '.') then
      '.' :: extRev.reverse
    else []
  else []

/-- Model of `str.lower()` on the extension (ASCII case folding). -/
def pyLower (s : List Char) : List Char := s.map Char.toLower

/-! ## Ingestion (`RAGHandler.load_and_process_documents`) -/

/-- The external effects ingestion depends on. `loadAndSplit` is the composite
`loader.load()` + `self.text_splitter.split_documents(documents)` for one file
(all three loaders `PyPDFLoader` / `TextLoader` / `Docx2txtLoader` are
functions of the path); an `Except.error` is an exception raised inside the
per-file `try` block. `embedOkCreate` / `embedOkAdd` tell whether
`FAISS.from_documents` / `add_documents` succeed (the embedding provider is
external; per the spec a failed `add` does not partially mutate the store).
`saveOk` tells whether `save_local` succeeds. -/
structure IngestEnv where
  fileExists : Path → Bool
  loadAndSplit : Path → Except Unit (List Chunk)
  embedOkCreate : Bool
  embedOkAdd : Bool
  saveOk : Bool

/-- The per-file outcome recorded by the loop's prints. -/
inductive FileOutcome where
  | notFound
  | unsupported (ext : List Char)
  | failed
  | ok (numChunks : Nat)
deriving DecidableEq, Repr

/-- One iteration of the ingestion loop: existence check, extension dispatch,
load and split; returns the logged outcome and the chunks extended onto
`all_chunks`. -/
def processFile (env : IngestEnv) (p : Path) : FileOutcome × List Chunk :=
  if env.fileExists p = false then (.notFound, [])
  else
    let ext := pyLower (pySplitextExt p)
    if ext = ".pdf".toList ∨ ext = ".txt".toList ∨ ext = ".docx".toList then
      match env.loadAndSplit p with
      | .ok chunks => (.ok chunks.length, chunks)
      | .error _ => (.failed, [])
    else (.unsupported ext, [])

/-- The whole ingestion loop over `file_paths`, accumulating the outcome log
and `all_chunks`. -/
def processFiles (env : IngestEnv) : List Path → List (Path × FileOutcome) × List Chunk
  | [] => ([], [])
  | p :: rest =>
    let r := processFile env p
    let rs := processFiles env rest
    ((p, r.1) :: rs.1, r.2 ++ rs.2)

/-- Which vector-store mutation was invoked. -/
inductive MutKind where
  | create
  | add
deriving DecidableEq, Repr

/-- What one call of `load_and_process_documents` did, reconstructed from its
control flow and prints: the per-file log, the FAISS mutation calls issued
(with their argument), whether `_save_vector_store` was invoked, and whether
the "No documents were successfully processed" failure was reported. -/
structure BatchResult where
  fileOutcomes : List (Path × FileOutcome)
  mutationCalls : List (MutKind × List Chunk)
  persistCalled : Bool
  reportedEmpty : Bool
deriving DecidableEq, Repr

/-- Model of `RAGHandler.load_and_process_documents(file_paths)`. -/
def load_and_process_documents (env : IngestEnv) (st : HState) (paths : List Path) :
    HState × BatchResult :=
  let pr := processFiles env paths
  if pr.2 = [] then
    (st, ⟨pr.1, [], false, true⟩)
  else
    match st.vector_store with
    | none =>
      if env.embedOkCreate then
        (save_vector_store env.saveOk { st with vector_store := some pr.2 },
         ⟨pr.1, [(.create, pr.2)], true, false⟩)
      else
        -- exception in FAISS.from_documents: the assignment to
        -- self.vector_store never happens, and the method returns
        (st, ⟨pr.1, [(.create, pr.2)], false, false⟩)
    | some idx =>
      if env.embedOkAdd then
        (save_vector_store env.saveOk { st with vector_store := some (idx ++ pr.2) },
         ⟨pr.1, [(.add, pr.2)], true, false⟩)
      else
        (st, ⟨pr.1, [(.add, pr.2)], false, false⟩)

/-! ## Similarity search

The FAISS similarity search is external; it is modelled as ranking the
stored chunks by a score function (the embedding-similarity oracle) and
taking the best `k`, deterministically for a fixed index and query. -/

/-- Insert a chunk into a ranking sorted by strictly greater score first
(stable: ties keep the earlier chunk in front). -/
def insertRanked (score : Chunk → List Char → Nat) (q : List Char) (c : Chunk) :
    List Chunk → List Chunk
  | [] => [c]
  | d :: ds =>
    if score d q < score c q then c :: d :: ds else d :: insertRanked score q c ds

/-- Rank all chunks of the index against the query. -/
def rankChunks (score : Chunk → List Char → Nat) (q : List Char) (idx : Index) :
    List Chunk :=
  idx.foldr (insertRanked score q) []

/-- Model of `similarity_search`: the `k` best-scoring chunks, best first. -/
def search (score : Chunk → List Char → Nat) (idx : Index) (q : List Char) (k : Nat) :
    List Chunk :=
  (rankChunks score q idx).take k

/-! ## Chunker

`RAGHandler.__init__` configures
`RecursiveCharacterTextSplitter(chunk_size=1000, chunk_overlap=200)`; the
splitter implementation itself is langchain library code outside `src/`. -/

/-- The `chunk_size=1000` argument of the splitter in `__init__`. -/
def chunk_size : Nat := 1000

/-- The `chunk_overlap=200` argument of the splitter in `__init__`. -/
def chunk_overlap : Nat := 200

/-- Modelled from the spec: the chunker implementation
(`RecursiveCharacterTextSplitter`) is not under `src/`; only its
configuration is. The spec prescribes deterministic sliding-window
segmentation in characters with fixed size and overlap, preserving document
order and never dropping trailing partial content. -/
def splitText (t : List Char) : List (List Char) :=
  if h : t.length ≤ chunk_size then [t]
  else t.take chunk_size :: splitText (t.drop (chunk_size - chunk_overlap))
termination_by t.length
decreasing_by simp [chunk_size, chunk_overlap] at h ⊢; omega

/-- Undo the overlap: keep the non-overlapping stride of every chunk but the
last, then the last chunk whole. Reconstructing the document witnesses both
chunk order and that no trailing content is dropped. -/
def reconstruct : List (List Char) → List Char
  | [] => []
  | [c] => c
  | c :: c2 :: rest => c.take (chunk_size - chunk_overlap) ++ reconstruct (c2 :: rest)

/-! ## Query path (`RAGHandler.get_answer`) -/

/-- The external completion side of `get_answer`: `qaInvoke idx q` is the
whole `RetrievalQA` chain invocation (retriever over the store `idx`, then
the LLM call). `Except.error` is an exception raised inside the `try`;
`Except.ok r` is the response, with `r = response.get("result")`
(`none` when the key is missing or maps to `None`). -/
structure QueryEnv where
  qaInvoke : Index → List Char → Except Unit (Option (List Char))

/-- Model of `RAGHandler.get_answer(query)`: `None` without a store; otherwise invoke
the chain inside `try`, catch every exception as `None`, and return the
answer only when it is truthy (a non-empty string). -/
def get_answer (env : QueryEnv) (st : HState) (query : List Char) :
    Option (List Char) :=
  match st.vector_store with
  | none => none
  | some idx =>
    match env.qaInvoke idx query with
    | .error _ => none
    | .ok answer =>
      match answer with
      | none => none
      | some a => if a = [] then none else some a

/-! ## Concrete sample data (used to instantiate the general theorems) -/

/-- A sample chunk, as produced from a small text file. -/
def chunkA : Chunk :=
  { page_content := "The capital of France is Paris.".toList,
    source := "doc.txt".toList }

/-- A second sample chunk, standing for previously ingested content. -/
def chunkB : Chunk :=
  { page_content := "Mars is a planet.".toList, source := "old.txt".toList }

/-- A sample supported path. -/
def pathTxt : Path := "doc.txt".toList

/-- A sample path with an unsupported extension. -/
def pathXyz : Path := "notes.xyz".toList

/-- A sample supported path with a mixed-case extension. -/
def pathDocxMixed : Path := "up/Doc.DocX".toList

/-- An environment where every external call succeeds and each file yields
one chunk. -/
def envAllOk : IngestEnv :=
  { fileExists := fun _ => true, loadAndSplit := fun _ => .ok [chunkA],
    embedOkCreate := true, embedOkAdd := true, saveOk := true }

/-- An environment where no path exists on disk. -/
def envNoFile : IngestEnv :=
  { fileExists := fun _ => false, loadAndSplit := fun _ => .error (),
    embedOkCreate := true, embedOkAdd := true, saveOk := true }

/-- An environment where the embedding provider fails every index mutation. -/
def envEmbedFail : IngestEnv :=
  { fileExists := fun _ => true, loadAndSplit := fun _ => .ok [chunkA],
    embedOkCreate := false, embedOkAdd := false, saveOk := true }

/-- An environment where mutations succeed but `save_local` raises. -/
def envSaveFail : IngestEnv :=
  { fileExists := fun _ => true, loadAndSplit := fun _ => .ok [chunkA],
    embedOkCreate := true, embedOkAdd := true, saveOk := false }

/-- A handler state holding one previously ingested and persisted chunk. -/
def stPersisted : HState :=
  { vector_store := some [chunkB], disk := some (encodeIndex [chunkB]) }

/-- A trivial similarity score (every chunk ties). -/
def scoreFlat : Chunk → List Char → Nat := fun _ _ => 0

/-- A sample query. -/
def queryA : List Char := "What is the capital of France?".toList

/-! ## Round-trip lemmas for the serialization -/

theorem map_ofNat_map_toNat (s : List Char) :
    (s.map Char.toNat).map Char.ofNat = s := by
  induction s with
  | nil => rfl
  | cons c cs ih => simp [ih, Char.ofNat_toNat]

theorem decodeStrings_encodeStrings (ls : List (List Char)) :
    decodeStrings (encodeStrings ls) = some ls := by
  induction ls with
  | nil => simp [encodeStrings, decodeStrings]
  | cons s ls ih =>
    have hE : encodeStrings (s :: ls)
        = s.length :: (s.map Char.toNat ++ encodeStrings ls) := by
      simp [encodeStrings]
    have hlen : s.length ≤ (s.map Char.toNat ++ encodeStrings ls).length := by
      simp
    rw [hE, decodeStrings, dif_pos hlen]
    have hdrop : (s.map Char.toNat ++ encodeStrings ls).drop s.length
        = encodeStrings ls := by
      have := List.drop_left (s.map Char.toNat) (encodeStrings ls)
      simpa using this
    have htake : (s.map Char.toNat ++ encodeStrings ls).take s.length
        = s.map Char.toNat := by
      have := List.take_left (s.map Char.toNat) (encodeStrings ls)
      simpa using this
    rw [hdrop, ih, htake, map_ofNat_map_toNat]

theorem pairUp_flatten (idx : Index) :
    pairUp ((idx.map (fun c => [c.page_content, c.source])).flatten) = some idx := by
  induction idx with
  | nil => rfl
  | cons c cs ih => simp [pairUp, ih]

theorem decodeIndex_encodeIndex (idx : Index) :
    decodeIndex (encodeIndex idx) = some idx := by
  rw [decodeIndex, encodeIndex, decodeStrings_encodeStrings]
  simpa using pairUp_flatten idx

/-! ## Chunker lemmas -/

theorem splitText_head (t : List Char) :
    ∃ ss, splitText t = t.take chunk_size :: ss := by
  rw [splitText]
  by_cases h : t.length ≤ chunk_size
  · rw [dif_pos h]
    exact ⟨[], by rw [List.take_of_length_le h]⟩
  · rw [dif_neg h]
    exact ⟨_, rfl⟩

theorem reconstruct_splitText (t : List Char) :
    reconstruct (splitText t) = t := by
  induction t using splitText.induct with
  | case1 t h => rw [splitText, dif_pos h]; rfl
  | case2 t h ih =>
    rw [splitText, dif_neg h]
    obtain ⟨ss, hss⟩ := splitText_head (t.drop (chunk_size - chunk_overlap))
    rw [hss] at ih ⊢
    rw [reconstruct, List.take_take]
    rw [show (chunk_size - chunk_overlap) ⊓ chunk_size = chunk_size - chunk_overlap by
      simp [chunk_size, chunk_overlap]]
    rw [show ((t.drop (chunk_size - chunk_overlap)).take chunk_size :: ss)
        = splitText (t.drop (chunk_size - chunk_overlap)) from hss.symm] at ih ⊢
    rw [ih, List.take_append_drop]

theorem splitText_chain (t : List Char) :
    List.Chain'
      (fun a b => a.length = chunk_size ∧ chunk_overlap < b.length
        ∧ a.drop (chunk_size - chunk_overlap) = b.take chunk_overlap)
      (splitText t) := by
  induction t using splitText.induct with
  | case1 t h => rw [splitText, dif_pos h]; exact List.chain'_singleton t
  | case2 t h ih =>
    rw [splitText, dif_neg h]
    obtain ⟨ss, hss⟩ := splitText_head (t.drop (chunk_size - chunk_overlap))
    rw [hss] at ih ⊢
    rw [List.chain'_cons]
    refine ⟨⟨?_, ?_, ?_⟩, ih⟩
    · simp at h ⊢; omega
    · simp [chunk_size, chunk_overlap] at h ⊢
      omega
    · rw [List.drop_take, List.take_take]
      rw [show chunk_size - (chunk_size - chunk_overlap) = chunk_overlap by
        simp [chunk_size, chunk_overlap]]
      rw [show chunk_overlap ⊓ chunk_size = chunk_overlap by
        simp [chunk_size, chunk_overlap]]

/-! ## Ingestion-loop lemmas -/

theorem processFiles_append (env : IngestEnv) (l1 l2 : List Path) :
    processFiles env (l1 ++ l2)
      = ((processFiles env l1).1 ++ (processFiles env l2).1,
         (processFiles env l1).2 ++ (processFiles env l2).2) := by
  induction l1 with
  | nil => simp [processFiles]
  | cons p rest ih => simp [processFiles, ih]

theorem processFile_skip (env : IngestEnv) (p : Path)
    (h : env.fileExists p = false
      ∨ ¬(pyLower (pySplitextExt p) = ".pdf".toList
          ∨ pyLower (pySplitextExt p) = ".txt".toList
          ∨ pyLower (pySplitextExt p) = ".docx".toList)) :
    processFile env p = (FileOutcome.notFound, [])
    ∨ processFile env p = (FileOutcome.unsupported (pyLower (pySplitextExt p)), []) := by
  by_cases hex : env.fileExists p = false
  · left; simp [processFile, hex]
  · right
    have hex' : env.fileExists p = true := by
      cases hfe : env.fileExists p
      · exact absurd hfe hex
      · rfl
    have h' : ¬(pyLower (pySplitextExt p) = ".pdf".toList
        ∨ pyLower (pySplitextExt p) = ".txt".toList
        ∨ pyLower (pySplitextExt p) = ".docx".toList) := by
      rcases h with h | h
      · rw [hex'] at h; exact absurd h (by simp)
      · exact h
    simp only [processFile, hex']
    rw [if_neg (by simp)]
    rw [if_neg (by simpa using h')]

/-! ## Claim theorems -/

/-- C1: for every ingestion batch, if the vector-index create or add
operation fails, the prior index state remains authoritative: the handler
state (in-memory store and persisted bytes) is exactly what it was before
the call — in particular a failed create leaves the handler with no index —
and `_save_vector_store` is never invoked, so the last successfully
persisted index is unchanged. -/
theorem mutation_failure_preserves_state (env : IngestEnv) (st : HState)
    (paths : List Path)
    (hfail : st.vector_store.elim env.embedOkCreate (fun _ => env.embedOkAdd) = false) :
    (load_and_process_documents env st paths).1 = st
    ∧ (load_and_process_documents env st paths).2.persistCalled = false := by
  rw [load_and_process_documents]
  by_cases hchunks : (processFiles env paths).2 = []
  · simp [hchunks]
  · cases hvs : st.vector_store with
    | none =>
      rw [hvs] at hfail
      simp only [Option.elim] at hfail
      simp [hchunks, hvs, hfail]
    | some idx =>
      rw [hvs] at hfail
      simp only [Option.elim] at hfail
      simp [hchunks, hvs, hfail]

/-- C1 witness: a concrete batch whose create call fails leaves the fresh
handler untouched and never reaches the persist step. -/
theorem mutation_failure_preserves_state_witness :
    (load_and_process_documents envEmbedFail ⟨none, none⟩ [pathTxt]).1
      = (⟨none, none⟩ : HState)
    ∧ (load_and_process_documents envEmbedFail ⟨none, none⟩ [pathTxt]).2.persistCalled
      = false :=
  mutation_failure_preserves_state envEmbedFail ⟨none, none⟩ [pathTxt] (by decide)

/-- C2: an ingestion batch that yields zero chunks performs no index
mutation and no persist — the handler state is returned unchanged — and the
batch is reported as the "No documents were successfully processed"
failure. -/
theorem empty_batch_no_mutation (env : IngestEnv) (st : HState) (paths : List Path)
    (h : (processFiles env paths).2 = []) :
    load_and_process_documents env st paths
      = (st, ⟨(processFiles env paths).1, [], false, true⟩) := by
  rw [load_and_process_documents]
  simp [h]

/-- C2 witness: a batch whose only path does not exist yields zero chunks,
leaves the state alone and reports failure. -/
theorem empty_batch_no_mutation_witness :
    load_and_process_documents envNoFile ⟨none, none⟩ [pathTxt]
      = (⟨none, none⟩,
         ⟨(processFiles envNoFile [pathTxt]).1, [], false, true⟩) :=
  empty_batch_no_mutation envNoFile ⟨none, none⟩ [pathTxt] (by decide)

/-- C3: an ingestion batch that yields at least one chunk issues exactly one
vector-index mutation on the aggregated chunks of the whole batch — create
when no index exists, otherwise add — and once that mutation succeeds the
persist step is invoked (writing the updated index to disk when the write
succeeds). -/
theorem batch_single_mutation (env : IngestEnv) (st : HState) (paths : List Path)
    (h : (processFiles env paths).2 ≠ []) :
    (load_and_process_documents env st paths).2.mutationCalls
      = [(st.vector_store.elim MutKind.create (fun _ => MutKind.add),
          (processFiles env paths).2)]
    ∧ (st.vector_store.elim env.embedOkCreate (fun _ => env.embedOkAdd) = true →
        (load_and_process_documents env st paths).2.persistCalled = true
        ∧ ∃ newIdx,
            (load_and_process_documents env st paths).1.vector_store = some newIdx
            ∧ (env.saveOk = true →
                (load_and_process_documents env st paths).1.disk
                  = some (encodeIndex newIdx))) := by
  rw [load_and_process_documents]
  cases hvs : st.vector_store with
  | none =>
    cases hcr : env.embedOkCreate
    · simp [h, hvs, hcr]
    · refine ⟨by simp [h, hvs, hcr], fun _ => ⟨by simp [h, hvs, hcr], ?_⟩⟩
      refine ⟨(processFiles env paths).2, ?_, ?_⟩
      · cases hsv : env.saveOk <;>
          simp [h, hvs, hcr, save_vector_store, hsv]
      · intro hsv
        simp [h, hvs, hcr, save_vector_store, hsv]
  | some idx =>
    cases had : env.embedOkAdd
    · simp [h, hvs, had]
    · refine ⟨by simp [h, hvs, had], fun _ => ⟨by simp [h, hvs, had], ?_⟩⟩
      refine ⟨idx ++ (processFiles env paths).2, ?_, ?_⟩
      · cases hsv : env.saveOk <;>
          simp [h, hvs, had, save_vector_store, hsv]
      · intro hsv
        simp [h, hvs, had, save_vector_store, hsv]

/-- C3 witness: a concrete one-file batch on a fresh handler issues exactly
one create call on the batch chunks and then persists. -/
theorem batch_single_mutation_witness :
    (load_and_process_documents envAllOk ⟨none, none⟩ [pathTxt]).2.mutationCalls
      = [((none : Option Index).elim MutKind.create (fun _ => MutKind.add),
          (processFiles envAllOk [pathTxt]).2)]
    ∧ ((none : Option Index).elim envAllOk.embedOkCreate (fun _ => envAllOk.embedOkAdd)
          = true →
        (load_and_process_documents envAllOk ⟨none, none⟩ [pathTxt]).2.persistCalled
          = true
        ∧ ∃ newIdx,
            (load_and_process_documents envAllOk ⟨none, none⟩ [pathTxt]).1.vector_store
              = some newIdx
            ∧ (envAllOk.saveOk = true →
                (load_and_process_documents envAllOk ⟨none, none⟩ [pathTxt]).1.disk
                  = some (encodeIndex newIdx))) :=
  batch_single_mutation envAllOk ⟨none, none⟩ [pathTxt] (by decide)

/-- C4: a file with an unsupported extension or a nonexistent path is
skipped without aborting the batch: it is logged as skipped (not-found or
unsupported), it contributes no chunks, every other file keeps its own
outcome, and the resulting handler state and index-mutation calls are the
same as for the batch without that file. -/
theorem skipped_file_isolated (env : IngestEnv) (st : HState)
    (before after : List Path) (p : Path)
    (h : env.fileExists p = false
      ∨ ¬(pyLower (pySplitextExt p) = ".pdf".toList
          ∨ pyLower (pySplitextExt p) = ".txt".toList
          ∨ pyLower (pySplitextExt p) = ".docx".toList)) :
    ((processFile env p).1 = FileOutcome.notFound
      ∨ (processFile env p).1 = FileOutcome.unsupported (pyLower (pySplitextExt p)))
    ∧ (processFiles env (before ++ p :: after)).1
        = (processFiles env before).1
          ++ (p, (processFile env p).1) :: (processFiles env after).1
    ∧ (processFiles env (before ++ p :: after)).2
        = (processFiles env (before ++ after)).2
    ∧ (load_and_process_documents env st (before ++ p :: after)).1
        = (load_and_process_documents env st (before ++ after)).1
    ∧ (load_and_process_documents env st (before ++ p :: after)).2.mutationCalls
        = (load_and_process_documents env st (before ++ after)).2.mutationCalls := by
  have hskip := processFile_skip env p h
  have hchunks : (processFile env p).2 = [] := by
    rcases hskip with h1 | h1 <;> rw [h1]
  have houtcome : (processFile env p).1 = FileOutcome.notFound
      ∨ (processFile env p).1 = FileOutcome.unsupported (pyLower (pySplitextExt p)) := by
    rcases hskip with h1 | h1 <;> [left; right] <;> rw [h1]
  have hmid : processFiles env (p :: after)
      = ((p, (processFile env p).1) :: (processFiles env after).1,
         (processFiles env after).2) := by
    rw [processFiles]
    simp [hchunks]
  have h1 : (processFiles env (before ++ p :: after)).1
      = (processFiles env before).1
        ++ (p, (processFile env p).1) :: (processFiles env after).1 := by
    rw [processFiles_append, hmid]
  have h2 : (processFiles env (before ++ p :: after)).2
      = (processFiles env (before ++ after)).2 := by
    rw [processFiles_append, hmid, processFiles_append]
  refine ⟨houtcome, h1, h2, ?_, ?_⟩ <;>
    rw [load_and_process_documents, load_and_process_documents, h2] <;>
    · by_cases hc : (processFiles env (before ++ after)).2 = []
      · simp [hc]
      · cases hvs : st.vector_store with
        | none => cases hcr : env.embedOkCreate <;> simp [hc, hvs, hcr]
        | some idx => cases had : env.embedOkAdd <;> simp [hc, hvs, had]

/-- C4 witness: in the batch `[doc.txt, notes.xyz, doc.txt]` the middle file
is skipped as unsupported while the aggregated chunks and the mutation are
those of the two supported siblings. -/
theorem skipped_file_isolated_witness :
    ((processFile envAllOk pathXyz).1 = FileOutcome.notFound
      ∨ (processFile envAllOk pathXyz).1
          = FileOutcome.unsupported (pyLower (pySplitextExt pathXyz)))
    ∧ (processFiles envAllOk ([pathTxt] ++ pathXyz :: [pathTxt])).1
        = (processFiles envAllOk [pathTxt]).1
          ++ (pathXyz, (processFile envAllOk pathXyz).1)
            :: (processFiles envAllOk [pathTxt]).1
    ∧ (processFiles envAllOk ([pathTxt] ++ pathXyz :: [pathTxt])).2
        = (processFiles envAllOk ([pathTxt] ++ [pathTxt])).2
    ∧ (load_and_process_documents envAllOk ⟨none, none⟩
          ([pathTxt] ++ pathXyz :: [pathTxt])).1
        = (load_and_process_documents envAllOk ⟨none, none⟩ ([pathTxt] ++ [pathTxt])).1
    ∧ (load_and_process_documents envAllOk ⟨none, none⟩
          ([pathTxt] ++ pathXyz :: [pathTxt])).2.mutationCalls
        = (load_and_process_documents envAllOk ⟨none, none⟩
            ([pathTxt] ++ [pathTxt])).2.mutationCalls :=
  skipped_file_isolated envAllOk ⟨none, none⟩ [pathTxt] [pathTxt] pathXyz
    (Or.inr (by decide))

/-- C9: extension dispatch is case-insensitive — the extension returned by
`os.path.splitext` is lower-cased before matching, so any existing file
whose lower-cased extension is `.pdf`, `.txt` or `.docx` is dispatched to a
loader (its outcome is a load attempt, never an unsupported-type skip). -/
theorem extension_dispatch_case_insensitive (env : IngestEnv) (p : Path)
    (hex : env.fileExists p = true)
    (hext : pyLower (pySplitextExt p) = ".pdf".toList
      ∨ pyLower (pySplitextExt p) = ".txt".toList
      ∨ pyLower (pySplitextExt p) = ".docx".toList) :
    (processFile env p).1 = FileOutcome.failed
    ∨ ∃ n, (processFile env p).1 = FileOutcome.ok n := by
  rw [processFile]
  rw [if_neg (by simp [hex])]
  rw [if_pos (by simpa using hext)]
  cases hl : env.loadAndSplit p with
  | ok chunks => exact Or.inr ⟨chunks.length, rfl⟩
  | error e => exact Or.inl rfl

/-- C9 witness: `up/Doc.DocX`, with its mixed-case extension, is dispatched
to a loader rather than skipped. -/
theorem extension_dispatch_case_insensitive_witness :
    (processFile envAllOk pathDocxMixed).1 = FileOutcome.failed
    ∨ ∃ n, (processFile envAllOk pathDocxMixed).1 = FileOutcome.ok n :=
  extension_dispatch_case_insensitive envAllOk pathDocxMixed (by decide)
    (Or.inr (Or.inr (by decide)))

/-- C5: `get_answer` is total (Python exceptions inside it are caught) and
returns `None` in exactly the failure cases: no vector store, an exception
from the `RetrievalQA` invocation, a response without a truthy `result`
(missing key / `None` / empty string); otherwise it returns the non-empty
answer, and no provider error reaches the caller. -/
theorem get_answer_none_iff (env : QueryEnv) (d : Option (List Nat))
    (idx : Index) (q : List Char) :
    get_answer env ⟨none, d⟩ q = none
    ∧ (get_answer env ⟨some idx, d⟩ q = none ↔
        env.qaInvoke idx q = .error ()
        ∨ env.qaInvoke idx q = .ok none
        ∨ env.qaInvoke idx q = .ok (some [])) := by
  refine ⟨rfl, ?_⟩
  cases hqa : env.qaInvoke idx q with
  | error e => simp [get_answer, hqa]
  | ok answer =>
    cases answer with
    | none => simp [get_answer, hqa]
    | some a =>
      by_cases ha : a = []
      · simp [get_answer, hqa, ha]
      · simp [get_answer, hqa, ha]

/-- C6: loading the persisted index never crashes the handler construction:
a missing path yields a handler with no index (and is not an error), and
bytes that fail to deserialize are caught and the handler falls back to no
index. -/
theorem load_vector_store_fallback (disk : Option (List Nat)) :
    (disk = none → initHandler disk = ⟨none, none⟩)
    ∧ (∀ bytes, disk = some bytes → decodeIndex bytes = none →
        (initHandler disk).vector_store = none) := by
  constructor
  · intro h
    rw [h]
    rfl
  · intro bytes hb hdec
    rw [hb]
    simp [initHandler, load_vector_store, hdec]

/-- C6 witness: the absent path and a concrete corrupt byte sequence (a
length prefix past the end of the data) both leave the handler without an
index. -/
theorem load_vector_store_fallback_witness :
    initHandler none = (⟨none, none⟩ : HState)
    ∧ (initHandler (some [5])).vector_store = none :=
  ⟨(load_vector_store_fallback none).1 rfl,
   (load_vector_store_fallback (some [5])).2 [5] rfl
     (by simp [decodeIndex, decodeStrings])⟩

/-- C7: the chunker splits a document into chunks in document order — undoing
the overlap reconstructs the document exactly, so trailing content shorter
than the window is never dropped — and each pair of consecutive chunks
overlaps by exactly the configured `chunk_overlap` (200 characters, window
size `chunk_size` = 1000): every non-final chunk is a full window whose last
200 characters are the first 200 characters of its successor. -/
theorem chunker_order_overlap_no_drop (t : List Char) :
    reconstruct (splitText t) = t
    ∧ List.Chain'
        (fun a b => a.length = chunk_size ∧ chunk_overlap < b.length
          ∧ a.drop (chunk_size - chunk_overlap) = b.take chunk_overlap)
        (splitText t) :=
  ⟨reconstruct_splitText t, splitText_chain t⟩

/-- C8: persisting an index and loading it back on a fresh handler yields
the same index, so its search results for any fixed query and `k` are
identical — same chunks, same order — to those of the pre-persist index. -/
theorem persist_then_load_roundtrip (idx : Index) (d : Option (List Nat))
    (score : Chunk → List Char → Nat) (q : List Char) (k : Nat) :
    (initHandler (save_vector_store true ⟨some idx, d⟩).disk).vector_store = some idx
    ∧ Option.map (fun j => search score j q k)
        (initHandler (save_vector_store true ⟨some idx, d⟩).disk).vector_store
      = some (search score idx q k) := by
  have h : (initHandler (save_vector_store true ⟨some idx, d⟩).disk).vector_store
      = some idx := by
    simp [save_vector_store, initHandler, load_vector_store, decodeIndex_encodeIndex]
  exact ⟨h, by rw [h]; rfl⟩

/-- C10: when the disk write fails after a successful create or add, the
error is swallowed: the updated index stays in memory while the persisted
bytes are unchanged — so, concretely, a search in the same process can
return a chunk that is absent from the last successfully persisted index. -/
theorem persist_failure_swallowed (env : IngestEnv) (st : HState) (paths : List Path)
    (hsave : env.saveOk = false)
    (hchunks : (processFiles env paths).2 ≠ [])
    (hmut : st.vector_store.elim env.embedOkCreate (fun _ => env.embedOkAdd) = true) :
    ((load_and_process_documents env st paths).1.disk = st.disk
      ∧ (load_and_process_documents env st paths).1.vector_store
          = some (st.vector_store.elim (processFiles env paths).2
              (fun idx => idx ++ (processFiles env paths).2)))
    ∧ (chunkA ∈ search scoreFlat
          ((load_and_process_documents envSaveFail stPersisted
              [pathTxt]).1.vector_store.getD [])
          queryA 4
        ∧ decodeIndex
            ((load_and_process_documents envSaveFail stPersisted [pathTxt]).1.disk.getD [])
            = some [chunkB]
        ∧ chunkA ∉ [chunkB]) := by
  constructor
  · rw [load_and_process_documents]
    cases hvs : st.vector_store with
    | none =>
      rw [hvs] at hmut
      simp only [Option.elim] at hmut
      simp [hchunks, hvs, hmut, save_vector_store, hsave]
    | some idx =>
      rw [hvs] at hmut
      simp only [Option.elim] at hmut
      simp [hchunks, hvs, hmut, save_vector_store, hsave]
  · have hdisk : (load_and_process_documents envSaveFail stPersisted [pathTxt]).1.disk
        = some (encodeIndex [chunkB]) := rfl
    refine ⟨by decide, ?_, by decide⟩
    rw [hdisk]
    simpa using decodeIndex_encodeIndex [chunkB]

/-- C10 witness: adding to a persisted one-chunk index with a failing disk
write keeps the two-chunk index in memory and the one-chunk index on disk. -/
theorem persist_failure_swallowed_witness :
    ((load_and_process_documents envSaveFail stPersisted [pathTxt]).1.disk
        = stPersisted.disk
      ∧ (load_and_process_documents envSaveFail stPersisted [pathTxt]).1.vector_store
          = some (stPersisted.vector_store.elim (processFiles envSaveFail [pathTxt]).2
              (fun idx => idx ++ (processFiles envSaveFail [pathTxt]).2)))
    ∧ (chunkA ∈ search scoreFlat
          ((load_and_process_documents envSaveFail stPersisted
              [pathTxt]).1.vector_store.getD [])
          queryA 4
        ∧ decodeIndex
            ((load_and_process_documents envSaveFail stPersisted [pathTxt]).1.disk.getD [])
            = some [chunkB]
        ∧ chunkA ∉ [chunkB]) :=
  persist_failure_swallowed envSaveFail stPersisted [pathTxt] rfl (by decide) (by decide)

end RagApp
